import Mathlib

/-!
Verification of the Bubo RSS reader build pipeline (`src/index.js` and its
`build` function) against its natural-language specification.

The JavaScript source is shallowly embedded: the pipeline is pure except for
its interactions with the network, the external `rss-parser` library and the
JavaScript `Date` constructor, which are modelled as oracle inputs
(per-source fetch/parse outcomes, and a `String → Option Int` date parser in
which `none` stands for `Invalid Date`).  JavaScript string operations are
re-implemented over `List Char` so that every definition evaluates inside the
kernel.  `Array.prototype.sort` (required by ECMAScript to be stable) is
modelled by a stable merge sort, given as a fuel-based structural program
`jsSort` together with a proof that it agrees with `List.mergeSort`.
-/

set_option maxRecDepth 8192

namespace Bubo

/-! ### JavaScript string primitives, over `List Char` -/

/-- JavaScript `a || b` on possibly-undefined strings: `none` models
`undefined`, and the empty string is falsy. -/
def jsOrStr (a b : Option String) : Option String :=
  match a with
  | some s => if s = "" then b else some s
  | none => b

/-- `String.prototype.split` with a non-empty separator, over char lists.
`cur` is the (reversed) chunk being accumulated; `fuel` bounds recursion and
is in excess whenever `fuel ≥ rest.length + 1`. -/
def splitL (sep : List Char) : Nat → List Char → List Char → List (List Char)
  | 0, cur, rest => [cur.reverse ++ rest]
  | fuel + 1, cur, rest =>
    if sep.isPrefixOf rest then
      cur.reverse :: splitL sep fuel [] (rest.drop sep.length)
    else
      match rest with
      | [] => [cur.reverse]
      | c :: rest2 => splitL sep fuel (c :: cur) rest2

/-- JavaScript `s.split(sep)` for non-empty `sep`. -/
def jsSplit (s sep : String) : List String :=
  (splitL sep.data (s.data.length + 1) [] s.data).map String.mk

/-- JavaScript `s.startsWith(pre)`. -/
def jsStartsWith (s pre : String) : Bool :=
  pre.data.isPrefixOf s.data

/-- JavaScript `s.endsWith(suf)`; also models `s.slice(-1) === c` for a
one-character `suf`. -/
def jsEndsWith (s suf : String) : Bool :=
  suf.data.isSuffixOf s.data

/-- Occurrence of `pat` as a contiguous substring. -/
def occursL (pat : List Char) : List Char → Bool
  | [] => pat.isPrefixOf []
  | c :: rest => pat.isPrefixOf (c :: rest) || occursL pat rest

/-- JavaScript `s.includes(pat)`. -/
def jsIncludes (s pat : String) : Bool :=
  occursL pat.data s.data

/-- JavaScript `s.substring(0, n)` (and `s.slice(0, n)`). -/
def jsTake (s : String) (n : Nat) : String :=
  String.mk (s.data.take n)

/-- JavaScript `s.slice(n)` for `0 ≤ n`. -/
def jsDrop (s : String) (n : Nat) : String :=
  String.mk (s.data.drop n)

/-- JavaScript string length (code units; surrogate pairs are immaterial to
the verified claims, so characters stand in for UTF-16 units). -/
def jsLen (s : String) : Nat :=
  s.data.length

/-! ### JavaScript runtime values for the strict-equality dissection -/

/-- The two JavaScript runtime types that meet in line 82's
`!contents.items.length === 0`. -/
inductive JSVal where
  | bool (b : Bool)
  | num (n : Int)
deriving Repr, DecidableEq

/-- JavaScript strict equality `===`: values of different runtime types are
never equal. -/
def strictEq : JSVal → JSVal → Bool
  | .bool a, .bool b => a == b
  | .num a, .num b => a == b
  | _, _ => false

/-! ### A kernel-computable stable merge sort

`List.mergeSort` is defined by well-founded recursion and does not reduce in
the kernel, so concrete runs could not be evaluated through it.  `jsSort`
below is the same algorithm written with structural recursion on a fuel
bound; `jsSort_eq_mergeSort` proves the agreement, letting the stock
`mergeSort` lemmas (stability, sortedness, permutation) apply to `jsSort`. -/

/-- `List.merge` with a fuel bound (adequate when
`fuel ≥ xs.length + ys.length`). -/
def jsMerge (le : α → α → Bool) : Nat → List α → List α → List α
  | 0, xs, ys => xs ++ ys
  | _ + 1, [], ys => ys
  | _ + 1, x :: xs, [] => x :: xs
  | fuel + 1, x :: xs, y :: ys =>
    if le x y then x :: jsMerge le fuel xs (y :: ys)
    else y :: jsMerge le fuel (x :: xs) ys

/-- Top-down stable merge sort with a fuel bound (adequate when
`fuel ≥ l.length`). -/
def jsSortFuel (le : α → α → Bool) : Nat → List α → List α
  | _, [] => []
  | _, [a] => [a]
  | 0, l => l
  | fuel + 1, l =>
    let k := (l.length + 1) / 2
    jsMerge le l.length
      (jsSortFuel le fuel (l.take k)) (jsSortFuel le fuel (l.drop k))

/-- Model of the (stable) `Array.prototype.sort`, as a function on lists. -/
def jsSort (le : α → α → Bool) (l : List α) : List α :=
  jsSortFuel le l.length l

theorem jsMerge_eq_merge (le : α → α → Bool) :
    ∀ (fuel : Nat) (xs ys : List α), xs.length + ys.length ≤ fuel →
      jsMerge le fuel xs ys = List.merge xs ys le := by
  intro fuel
  induction fuel with
  | zero =>
    intro xs ys h
    cases xs with
    | nil =>
      cases ys with
      | nil => simp [jsMerge]
      | cons y ys' => simp at h
    | cons x xs' => simp at h
  | succ n ih =>
    intro xs ys h
    cases xs with
    | nil => simp [jsMerge]
    | cons x xs' =>
      cases ys with
      | nil => simp [jsMerge]
      | cons y ys' =>
        simp only [jsMerge, List.cons_merge_cons]
        by_cases hle : le x y = true
        · simp only [hle, if_true]
          congr 1
          apply ih
          simp only [List.length_cons] at h ⊢
          omega
        · simp only [Bool.not_eq_true] at hle
          simp only [hle, Bool.false_eq_true, if_false]
          congr 1
          apply ih
          simp only [List.length_cons] at h ⊢
          omega

theorem jsSortFuel_eq_mergeSort (le : α → α → Bool) :
    ∀ (fuel : Nat) (l : List α), l.length ≤ fuel →
      jsSortFuel le fuel l = l.mergeSort le := by
  intro fuel
  induction fuel with
  | zero =>
    intro l h
    match l with
    | [] => simp [jsSortFuel]
    | [a] => simp [jsSortFuel]
    | a :: b :: l' => simp at h
  | succ n ih =>
    intro l h
    match l with
    | [] => simp [jsSortFuel]
    | [a] => simp [jsSortFuel]
    | a :: b :: l' =>
      rw [List.mergeSort]
      have hsplit1 : (List.splitInTwo ⟨a :: b :: l', rfl⟩).1.1
          = (a :: b :: l').take (((a :: b :: l').length + 1) / 2) := by
        simp [List.splitInTwo, List.splitAt_eq]
      have hsplit2 : (List.splitInTwo ⟨a :: b :: l', rfl⟩).2.1
          = (a :: b :: l').drop (((a :: b :: l').length + 1) / 2) := by
        simp [List.splitInTwo, List.splitAt_eq]
      have htake : ((a :: b :: l').take (((a :: b :: l').length + 1) / 2)).length ≤ n := by
        simp only [List.length_take, List.length_cons] at h ⊢
        omega
      have hdrop : ((a :: b :: l').drop (((a :: b :: l').length + 1) / 2)).length ≤ n := by
        simp only [List.length_drop, List.length_cons] at h ⊢
        omega
      simp only [jsSortFuel]
      rw [ih _ htake, ih _ hdrop, hsplit1, hsplit2]
      apply jsMerge_eq_merge
      simp only [List.length_mergeSort, List.length_take, List.length_drop,
        List.length_cons]
      omega

/-- `jsSort` is exactly `List.mergeSort`. -/
theorem jsSort_eq_mergeSort (le : α → α → Bool) (l : List α) :
    jsSort le l = l.mergeSort le :=
  jsSortFuel_eq_mergeSort le l.length l (Nat.le_refl _)

/-! ### Data model

Canonical parsed-feed shapes, translated from the fields the pipeline reads.
`Option` models possibly-absent (`undefined`) fields.  Outcomes of the
external collaborators — network fetch, `rss-parser`, `new Date` — enter as
oracle data: a `Source` carries its settled fetch result, a `Response`
carries the parse result for its body, and dates are interpreted by an
oracle `newDate : String → Option Int` (`none` = `Invalid Date`). -/

structure Item where
  title : Option String := none
  link : Option String := none
  isoDate : Option String := none
  pubDate : Option String := none
  date : Option String := none
  published : Option String := none
  contentSnippet : Option String := none
  content : Option String := none
  comments : Option String := none
  /-- `item.timestamp` (line 102) modelled as the parsed time value:
  `some t` stands for a valid locale date string, `none` for the string
  rendering of an invalid date. -/
  timestamp : Option Int := none
deriving Repr, DecidableEq

structure Channel where
  title : Option String := none
  description : Option String := none
deriving Repr, DecidableEq

structure Contents where
  title : Option String := none
  description : Option String := none
  channel : Option Channel := none
  link : Option String := none
  feedUrl : Option String := none
  items : List Item := []
  feed : Option String := none
deriving Repr, DecidableEq

structure Response where
  /-- `response.headers.get('content-type')`; `none` models a `null` header. -/
  contentType : Option String
  /-- Outcome of `parser.parseString(body)` on this response's body text. -/
  parsed : Except Unit Contents
deriving Repr

structure Source where
  url : String
  /-- Settled outcome of `fetch(url)`: `.error` is a rejected promise. -/
  fetch : Except Unit Response
deriving Repr

structure Config where
  /-- `config.redirects`; `none` models an absent (falsy) key, so `some []`
  is a configured-but-empty table, which still activates step 4. -/
  redirects : Option (List (String × String)) := none
deriving Repr

structure URLRec where
  hostname : String
  pathname : String
  search : String
deriving Repr, DecidableEq

/-- What one settled Source contributes to the surrounding `build` loop:
the object pushed onto `groupContents[groupName]` (if any), the items
appended to `allItems`, and whether `errors.push(url)` ran. -/
structure SourceOutcome where
  groupFeed : Option Contents
  newItems : List Item
  errored : Bool
deriving Repr, DecidableEq

/-- The data handed to the template renderer (line 162). -/
structure BuildOutput where
  allItems : List Item
  groups : List (String × List Contents)
  errors : List String
deriving Repr, DecidableEq

/-! ### Utilities of the source file -/

/-- Allow-list of acceptable content types (lines 19–28). -/
def CONTENT_TYPES : List String :=
  ["application/json", "application/atom+xml", "application/rss+xml",
   "application/xml", "application/octet-stream", "text/xml",
   "application/x-rss+xml", "application/force-download"]

/-- `isRSSExtension` (lines 30–32). -/
def isRSSExtension (url : String) : Bool :=
  [".rss", ".xml", ".rdf"].any (fun ext => jsEndsWith url ext)

/-- `parseDate` (lines 171–177). The result distinguishes the three runtime
situations: `none` = `undefined` (no argument, or no truthy
`isoDate || pubDate` field), `some none` = an `Invalid Date` object,
`some (some t)` = a valid `Date` with time value `t`. -/
def parseDate (newDate : String → Option Int) (item : Option Item) :
    Option (Option Int) :=
  match item with
  | none => none
  | some it =>
    match jsOrStr it.isoDate it.pubDate with
    | none => none
    | some d => if d = "" then none else some (newDate d)

/-- `byDateSort` (lines 179–183) as seen by the sort: the comparator returns
`0` when either `Date` is `undefined` (line 181), and when either `Date` is
invalid its value `bDate - aDate` is `NaN`, which ECMAScript's `SortCompare`
coerces to `+0`; both cases are folded into the `0` branch here. -/
def byDateSort (newDate : String → Option Int) (a b : Option Item) : Int :=
  match parseDate newDate a, parseDate newDate b with
  | some (some ta), some (some tb) => tb - ta
  | _, _ => 0

/-- Boolean ordering used to model the stable `Array.prototype.sort` run
with comparator `byDateSort` over items. -/
def itemLE (newDate : String → Option Int) (a b : Item) : Bool :=
  decide (byDateSort newDate (some a) (some b) ≤ 0)

/-- `contents.items.sort(byDateSort)` / `allItems.sort(...)` (lines 98, 159). -/
def jsSortItems (newDate : String → Option Int) (items : List Item) : List Item :=
  jsSort (itemLE newDate) items

/-- Comparator of the per-group feed sort (line 155): compares the first
items of the two feeds; `a.items[0]` is `undefined` on an empty feed. -/
def feedLE (newDate : String → Option Int) (a b : Contents) : Bool :=
  decide (byDateSort newDate a.items[0]? b.items[0]? ≤ 0)

/-- `feeds.sort((a, b) => byDateSort(a.items[0], b.items[0]))` (lines 154–156). -/
def jsSortFeeds (newDate : String → Option Int) (feeds : List Contents) : List Contents :=
  jsSort (feedLE newDate) feeds

/-! ### The per-source try-block (lines 69–138) -/

/-- Lines 70–71: `response.headers.get('content-type').split(';')[0]`.
When the header is absent `get` returns `null` and `.split` throws. -/
def contentTypeOf (resp : Response) : Except Unit String :=
  match resp.contentType with
  | none => .error ()
  | some s => .ok ((jsSplit s ";").headD "")

/-- Line 82's guard `!contents.items.length === 0`: JavaScript `===` between
the boolean `!length` and the number `0`. -/
def emptyItemsCheck (len : Nat) : Bool :=
  strictEq (.bool (len == 0)) (.num 0)

/-- Lines 86–90: title fallback chain
`title || description || (channel && channel.title) ||
(channel && channel.description) || link`. -/
def titleChain (c : Contents) : Option String :=
  jsOrStr c.title (jsOrStr c.description (jsOrStr (c.channel.bind Channel.title)
    (jsOrStr (c.channel.bind Channel.description) c.link)))

/-- Lines 91–93: `title.substring(0, 97) + '...'` when `title.length > 100`. -/
def truncateTitle (t : String) : String :=
  if 100 < jsLen t then jsTake t 97 ++ "..." else t

/-- Lines 86–93 combined: when every fallback is `undefined`, line 91 reads
`.length` of `undefined` and throws. -/
def titleOf (c : Contents) : Except Unit String :=
  match titleChain c with
  | none => .error ()
  | some t => .ok (truncateTitle t)

/-- Line 101: `item.pubDate || item.isoDate || item.date || item.published`. -/
def dateAttr (it : Item) : Option String :=
  jsOrStr it.pubDate (jsOrStr it.isoDate (jsOrStr it.date it.published))

/-- Lines 100–102: `item.timestamp = new Date(dateAttr).toLocaleDateString()`.
Never throws; a missing or empty attribute yields an invalid date. -/
def step1Timestamp (newDate : String → Option Int) (it : Item) : Item :=
  let ts :=
    match dateAttr it with
    | none => none
    | some d => if d = "" then none else newDate d
  { it with timestamp := ts }

/-- Lines 108–110: concatenation of the feed base link and a relative item
link, dropping the duplicated separator when the base ends with `/` and the
item link begins with `/`. -/
def absolutizeLink (base link : String) : String :=
  if jsEndsWith base "/" && jsStartsWith link "/" then base ++ jsDrop link 1
  else base ++ link

/-- Lines 104–111: runs only when `item.link` is truthy and
`item.link.split('http').length === 1` (no occurrence of `http`); reading
`contents.link.slice(-1)` throws when the feed itself has no `link`. -/
def step2Link (contentsLink : Option String) (it : Item) : Except Item Item :=
  match it.link with
  | none => .ok it
  | some l =>
    if l = "" then .ok it
    else if (jsSplit l "http").length = 1 then
      match contentsLink with
      | none => .error it
      | some base => .ok { it with link := some (absolutizeLink base l) }
    else .ok it

/-- The regex `(?<=")(?:\\.|[^"\\])*(?=")` continued after an opening quote:
consume backslash-escape pairs or plain characters (never a bare quote or
backslash) until the next quote; `none` when no closing quote is reachable,
which models `String.prototype.match` returning `null`. -/
def matchRun : List Char → Option (List Char)
  | [] => none
  | '"' :: _ => some []
  | '\\' :: c :: rest => (matchRun rest).map (fun r => '\\' :: c :: r)
  | ['\\'] => none
  | c :: rest => (matchRun rest).map (fun r => c :: r)

/-- First match of the quoted-content regex: the earliest position preceded
by a `"` from which `matchRun` succeeds. -/
def firstQuotedFrom : List Char → Option (List Char)
  | [] => none
  | '"' :: rest =>
    match matchRun rest with
    | some r => some r
    | none => firstQuotedFrom rest
  | _ :: rest => firstQuotedFrom rest

/-- `s.match(quotesContentMatch)[0]` (lines 116–119): the first quoted run. -/
def firstQuoted (s : String) : Option String :=
  (firstQuotedFrom s.data).map String.mk

/-- Lines 113–120: subreddit comment-link extraction.  The content is split
at `<a href=`; parts 2 and 3 give the content and comments links.  A missing
part or a `null` match throws (line 118 before `item.link` is assigned,
line 119 after), so the error payload carries the partial mutation. -/
def step3Reddit (isRedditRSS : Bool) (it : Item) : Except Item Item :=
  let trigger := isRedditRSS &&
    (match it.contentSnippet with
     | some s => jsStartsWith s "submitted by    "
     | none => false)
  if trigger then
    match it.content with
    | none => .error it
    | some c =>
      let parts := jsSplit c "<a href="
      match parts[2]? with
      | none => .error it
      | some contentLink =>
        match firstQuoted contentLink with
        | none => .error it
        | some l =>
          let it2 := { it with link := some l }
          match parts[3]? with
          | none => .error it2
          | some commentsLink =>
            match firstQuoted commentsLink with
            | none => .error it2
            | some m => .ok { it2 with comments := some m }
  else .ok it

/-- Model of the WHATWG `new URL(·)` parser restricted to what the pipeline
consumes of absolute `http(s)://host[/path][?query]` URLs: `hostname`,
`pathname` (`/` when empty) and `search`.  `none` models the `TypeError`
thrown on inputs without a scheme (e.g. `new URL(undefined)`). -/
def parseURL (s : String) : Option URLRec :=
  let rest? : Option String :=
    if jsStartsWith s "https://" then some (jsDrop s 8)
    else if jsStartsWith s "http://" then some (jsDrop s 7)
    else none
  rest?.map (fun rest =>
    let host := rest.data.takeWhile (fun c => c != '/' && c != '?')
    let tail := rest.data.drop host.length
    let path := tail.takeWhile (fun c => c != '?')
    let search := tail.drop path.length
    { hostname := String.mk host
      pathname := if path = [] then "/" else String.mk path
      search := String.mk search })

/-- Lines 126–127: `url.hostname.split('.')` and `tokens[tokens.length - 2]`,
the label immediately before the top-level-domain label; `none` models the
`undefined` a JS out-of-range index yields on single-label hostnames. -/
def hostToken (hostname : String) : Option String :=
  let tokens := jsSplit hostname "."
  if 2 ≤ tokens.length then tokens[tokens.length - 2]? else none

/-- Lines 122–130: hostname-token redirect.  An unknown (or `undefined`)
token leaves the link unchanged; a hit rewrites the link to
`https://` + replacement + pathname + search. -/
def step4Redirect (redirects : Option (List (String × String))) (it : Item) :
    Except Item Item :=
  match redirects with
  | none => .ok it
  | some table =>
    match it.link with
    | none => .error it
    | some l =>
      match parseURL l with
      | none => .error it
      | some u =>
        match hostToken u.hostname with
        | none => .ok it
        | some host =>
          match table.lookup host with
          | none => .ok it
          | some r =>
            .ok { it with link := some ("https://" ++ r ++ u.pathname ++ u.search) }

/-- Lines 99–131: the four transforms applied to one item, in source order;
`.error` carries the item as mutated up to the throwing transform. -/
def normalizeItem (cfg : Config) (newDate : String → Option Int)
    (contentsLink : Option String) (isRedditRSS : Bool) (it : Item) :
    Except Item Item :=
  match step2Link contentsLink (step1Timestamp newDate it) with
  | .error e => .error e
  | .ok it2 =>
    match step3Reddit isRedditRSS it2 with
    | .error e => .error e
    | .ok it3 => step4Redirect cfg.redirects it3

/-- `contents.items.forEach(...)` with in-place mutation: when an item
throws, the prefix stays normalized, the failing item keeps its partial
mutations, and the suffix is untouched — the error payload is the item list
in that state. -/
def normalizeItems (cfg : Config) (newDate : String → Option Int)
    (contentsLink : Option String) (isRedditRSS : Bool) :
    List Item → Except (List Item) (List Item)
  | [] => .ok []
  | it :: rest =>
    match normalizeItem cfg newDate contentsLink isRedditRSS it with
    | .error e => .error (e :: rest)
    | .ok it2 =>
      match normalizeItems cfg newDate contentsLink isRedditRSS rest with
      | .error es => .error (it2 :: es)
      | .ok oks => .ok (it2 :: oks)

/-- The try-block for one fulfilled fetch (lines 69–138).  Note the push
onto `groupContents` (line 95) happens before the item sort and the
normalization loop, so a throw inside the loop still leaves the feed — with
partially normalized items — in the group, while `allItems` receives
nothing and the URL goes to `errors`. -/
def processResponse (cfg : Config) (newDate : String → Option Int)
    (url : String) (resp : Response) : SourceOutcome :=
  match contentTypeOf resp with
  | .error _ => ⟨none, [], true⟩
  | .ok ct =>
    if !(CONTENT_TYPES.contains ct) && !(isRSSExtension url) then ⟨none, [], true⟩
    else
      match resp.parsed with
      | .error _ => ⟨none, [], true⟩
      | .ok contents0 =>
        let isRedditRSS :=
          match contents0.feedUrl with
          | none => false
          | some fu => jsIncludes fu "reddit.com/r/"
        if emptyItemsCheck contents0.items.length then ⟨none, [], true⟩
        else
          let c1 := { contents0 with feed := some url }
          match titleOf c1 with
          | .error _ => ⟨none, [], true⟩
          | .ok t =>
            let c2 := { c1 with title := some t }
            let sorted := jsSortItems newDate c2.items
            match normalizeItems cfg newDate c2.link isRedditRSS sorted with
            | .error partialItems => ⟨some { c2 with items := partialItems }, [], true⟩
            | .ok items2 => ⟨some { c2 with items := items2 }, items2, false⟩

/-- One settled result of the `Promise.allSettled` batch (lines 59–139):
a rejected fetch is logged and skipped, a fulfilled one runs the try-block. -/
def processSource (cfg : Config) (newDate : String → Option Int) (s : Source) :
    SourceOutcome :=
  match s.fetch with
  | .error _ => ⟨none, [], true⟩
  | .ok resp => processResponse cfg newDate s.url resp

/-- The per-group results loop: feeds pushed onto `groupContents[groupName]`,
items appended to `allItems`, failing URLs appended to `errors`, in settled
order (`Promise.allSettled` preserves input order). -/
def processGroup (cfg : Config) (newDate : String → Option Int) :
    List Source → List Contents × List Item × List String
  | [] => ([], [], [])
  | s :: rest =>
    let o := processSource cfg newDate s
    let r := processGroup cfg newDate rest
    (o.groupFeed.toList ++ r.1, o.newItems ++ r.2.1,
      (if o.errored then [s.url] else []) ++ r.2.2)

/-- The `build` function (lines 40–166): the live pipeline over all groups,
with the cache inputs (`cache.allItems`, `cache.groups`) passed explicitly
(`none` = absent key).  Per-group feed lists are sorted by first-item date,
and the merged `allItems` is sorted by `byDateSort` (lines 152–159). -/
def build (cfg : Config) (newDate : String → Option Int)
    (feeds : List (String × List Source)) (cacheAllItems : List Item)
    (cacheGroups : Option (List (String × List Contents))) : BuildOutput :=
  let processed : List (String × List Contents × List Item × List String) :=
    feeds.map (fun g => (g.1, processGroup cfg newDate g.2))
  let allItems0 : List Item :=
    cacheAllItems ++ processed.foldr (fun g acc => g.2.2.1 ++ acc) []
  let errors : List String := processed.foldr (fun g acc => g.2.2.2 ++ acc) []
  let groups0 : List (String × List Contents) :=
    match cacheGroups with
    | some gs => gs
    | none => processed.map (fun g => (g.1, g.2.1))
  let groups := groups0.map (fun g => (g.1, jsSortFeeds newDate g.2))
  ⟨jsSortItems newDate allItems0, groups, errors⟩

/-! ### Comparator facts -/

/-- An argument to the comparator whose date is missing or unparseable:
either `undefined` is passed, no truthy `isoDate`/`pubDate` field exists, or
the field does not parse as a date. -/
def undatedO (newDate : String → Option Int) (x : Option Item) : Bool :=
  match parseDate newDate x with
  | some (some _) => false
  | _ => true

/-- `undatedO` specialised to a present item. -/
def undated (newDate : String → Option Int) (it : Item) : Bool :=
  undatedO newDate (some it)

theorem byDateSort_eq_zero_of_undated (newDate : String → Option Int)
    (a b : Option Item)
    (h : undatedO newDate a = true ∨ undatedO newDate b = true) :
    byDateSort newDate a b = 0 := by
  unfold byDateSort
  split
  · rename_i ta tb hpa hpb
    exfalso
    rcases h with h | h
    · rw [undatedO, hpa] at h
      simp at h
    · rw [undatedO, hpb] at h
      simp at h
  · rfl

theorem dated_exists (newDate : String → Option Int) (it : Item)
    (h : undated newDate it = false) :
    ∃ t, parseDate newDate (some it) = some (some t) := by
  rw [undated, undatedO] at h
  split at h
  · rename_i t hp
    exact ⟨t, hp⟩
  · simp at h

theorem byDateSort_of_dated (newDate : String → Option Int) (a b : Item)
    (ta tb : Int) (hpa : parseDate newDate (some a) = some (some ta))
    (hpb : parseDate newDate (some b) = some (some tb)) :
    byDateSort newDate (some a) (some b) = tb - ta := by
  rw [byDateSort, hpa, hpb]

/-! ### Local sortedness and stability of the modelled sort -/

/-- `sorted_mergeSort` with transitivity and totality required only on the
members of the list being sorted, obtained by transporting the global
statement along `List.attach`. -/
theorem pairwise_jsSort_of_local (le : α → α → Bool) (l : List α)
    (htrans : ∀ a ∈ l, ∀ b ∈ l, ∀ c ∈ l, le a b = true → le b c = true → le a c = true)
    (htotal : ∀ a ∈ l, ∀ b ∈ l, le a b || le b a) :
    (jsSort le l).Pairwise (fun a b => le a b = true) := by
  rw [jsSort_eq_mergeSort]
  have hsorted := @List.sorted_mergeSort _
      (fun a b : {x // x ∈ l} => le a.val b.val)
      (fun a b c hab hbc => htrans a.val a.2 b.val b.2 c.val c.2 hab hbc)
      (fun a b => htotal a.val a.2 b.val b.2) l.attach
  have hmap : (l.attach.mergeSort (fun a b : {x // x ∈ l} => le a.val b.val)).map
      Subtype.val = l.mergeSort le := by
    rw [@List.map_mergeSort _ _ (fun a b : {x // x ∈ l} => le a.val b.val) le
      Subtype.val l.attach (fun a _ b _ => rfl)]
    rw [List.attach_map_subtype_val]
  rw [← hmap]
  exact (List.pairwise_map).mpr hsorted

/-- Merging when `p`-elements compare `le`-true against everything keeps
the `p`-elements of the left list before those of the right list. -/
theorem filter_merge_of_always (le : α → α → Bool) (p : α → Bool)
    (h : ∀ a b, p a = true ∨ p b = true → le a b = true) :
    ∀ xs ys : List α, (List.merge xs ys le).filter p = xs.filter p ++ ys.filter p := by
  intro xs
  induction xs with
  | nil => intro ys; simp
  | cons x xs' ihx =>
    intro ys
    induction ys with
    | nil => simp
    | cons y ys' ihy =>
      rw [List.cons_merge_cons]
      by_cases hxy : le x y = true
      · rw [if_pos hxy]
        simp only [List.filter_cons, ihx (y :: ys')]
        cases hpx : p x <;> simp
      · have hpy : p y = false := by
          cases hp : p y with
          | true => exact absurd (h x y (Or.inr hp)) hxy
          | false => rfl
        rw [if_neg hxy]
        simp [List.filter_cons, hpy, ihy]

/-- Stability of the modelled sort for elements the comparator reports as
equal to everything: sorting never reorders them relative to each other. -/
theorem filter_mergeSort_of_always (le : α → α → Bool) (p : α → Bool)
    (h : ∀ a b, p a = true ∨ p b = true → le a b = true) :
    ∀ l : List α, (l.mergeSort le).filter p = l.filter p
  | [] => by simp
  | [a] => by simp
  | a :: b :: xs => by
    have h1 : (List.splitInTwo ⟨a :: b :: xs, rfl⟩).1.1.length < xs.length + 1 + 1 := by
      simp [List.splitInTwo_fst]
      omega
    have h2 : (List.splitInTwo ⟨a :: b :: xs, rfl⟩).2.1.length < xs.length + 1 + 1 := by
      simp [List.splitInTwo_snd]
      omega
    rw [List.mergeSort]
    rw [filter_merge_of_always le p h]
    rw [filter_mergeSort_of_always le p h (List.splitInTwo ⟨a :: b :: xs, rfl⟩).1.1]
    rw [filter_mergeSort_of_always le p h (List.splitInTwo ⟨a :: b :: xs, rfl⟩).2.1]
    rw [← List.filter_append]
    rw [List.splitInTwo_fst_append_splitInTwo_snd]
termination_by l => l.length

theorem filter_jsSort_of_always (le : α → α → Bool) (p : α → Bool)
    (h : ∀ a b, p a = true ∨ p b = true → le a b = true) (l : List α) :
    (jsSort le l).filter p = l.filter p := by
  rw [jsSort_eq_mergeSort]
  exact filter_mergeSort_of_always le p h l

/-! ### Pipeline invariants -/

/-- A failed try-block contributes nothing to `allItems`; a successful one
contributes a feed whose items are exactly what `allItems` receives. -/
theorem processResponse_invariant (cfg : Config) (newDate : String → Option Int)
    (url : String) (resp : Response) :
    ((processResponse cfg newDate url resp).errored = true →
      (processResponse cfg newDate url resp).newItems = []) ∧
    ((processResponse cfg newDate url resp).errored = false →
      ∃ c, (processResponse cfg newDate url resp).groupFeed = some c ∧
        (processResponse cfg newDate url resp).newItems = c.items) := by
  unfold processResponse
  dsimp only
  repeat' split
  all_goals refine ⟨fun h => ?_, fun h => ?_⟩
  all_goals first
    | rfl
    | exact ⟨_, rfl, rfl⟩
    | simp at h

theorem processSource_invariant (cfg : Config) (newDate : String → Option Int)
    (s : Source) :
    ((processSource cfg newDate s).errored = true →
      (processSource cfg newDate s).newItems = []) ∧
    ((processSource cfg newDate s).errored = false →
      ∃ c, (processSource cfg newDate s).groupFeed = some c ∧
        (processSource cfg newDate s).newItems = c.items) := by
  unfold processSource
  split
  · simp
  · exact processResponse_invariant cfg newDate s.url _

/-- A failing source's URL lands in its group's error list. -/
theorem mem_processGroup_errors (cfg : Config) (newDate : String → Option Int)
    (ss : List Source) (s : Source) (hs : s ∈ ss)
    (herr : (processSource cfg newDate s).errored = true) :
    s.url ∈ (processGroup cfg newDate ss).2.2 := by
  induction ss with
  | nil => cases hs
  | cons a rest ih =>
    rcases List.mem_cons.mp hs with h | h
    · subst h
      simp only [processGroup, herr, if_pos]
      exact List.mem_append_left _ (List.mem_singleton.mpr rfl)
    · exact List.mem_append_right _ (ih h)

theorem build_errors_eq (cfg : Config) (newDate : String → Option Int)
    (feeds : List (String × List Source)) (cacheAllItems : List Item)
    (cacheGroups : Option (List (String × List Contents))) :
    (build cfg newDate feeds cacheAllItems cacheGroups).errors
      = feeds.foldr (fun gp acc => (processGroup cfg newDate gp.2).2.2 ++ acc) [] := by
  simp only [build]
  rw [List.foldr_map]

/-- A failing source's URL lands in the final `errors` output. -/
theorem mem_build_errors (cfg : Config) (newDate : String → Option Int)
    (feeds : List (String × List Source)) (cacheAllItems : List Item)
    (cacheGroups : Option (List (String × List Contents)))
    (g : String) (ss : List Source) (s : Source)
    (hg : (g, ss) ∈ feeds) (hs : s ∈ ss)
    (herr : (processSource cfg newDate s).errored = true) :
    s.url ∈ (build cfg newDate feeds cacheAllItems cacheGroups).errors := by
  rw [build_errors_eq]
  induction feeds with
  | nil => cases hg
  | cons f rest ih =>
    rcases List.mem_cons.mp hg with h | h
    · subst h
      exact List.mem_append_left _ (mem_processGroup_errors cfg newDate ss s hs herr)
    · exact List.mem_append_right _ (ih h)

/-! ### Concrete fixtures for evaluated runs -/

/-- Concrete `new Date` oracle: three ISO strings parse to their real
millisecond time values, every other string is an invalid date. -/
def ndConc : String → Option Int := fun s =>
  if s = "2001-01-01T00:00:00.000Z" then some 978307200000
  else if s = "2002-01-01T00:00:00.000Z" then some 1009843200000
  else if s = "2003-01-01T00:00:00.000Z" then some 1041379200000
  else none

def c1A : Item := { title := some "older", isoDate := some "2001-01-01T00:00:00.000Z" }

def c1X : Item := { title := some "undated one" }

def c1Y : Item := { title := some "undated two" }

def c1B : Item := { title := some "newer", isoDate := some "2002-01-01T00:00:00.000Z" }

def c1Feed : Contents :=
  { title := some "Feed", link := some "https://c.example/",
    items := [c1A, c1X, c1Y, c1B] }

def c1Src : Source :=
  { url := "https://c.example/feed.xml",
    fetch := .ok { contentType := some "application/rss+xml", parsed := .ok c1Feed } }

def c1Build : BuildOutput := build {} ndConc [("news", [c1Src])] [] none

/-! ### Claims -/

/-- **C1 (counterexample).**  The claim states that in the final `allItems`
every pair of positions `i < j` whose items both parse to dates satisfies
`date(allItems[i]) ≥ date(allItems[j])`, even with undated items interleaved.
On a single feed `[older(2001), undated, undated, newer(2002)]` the stable
sort keeps the input order, because the comparator returns `0` against the
interleaved undated items and the two dated items are never compared: in the
built output, position 0 parses to the 2001 date, position 3 to the 2002
date, and the 2001 value is strictly smaller — the claimed inequality fails
at `i = 0 < j = 3`. -/
theorem C1_counterexample :
    (0 : Nat) < 3 ∧ 3 < c1Build.allItems.length ∧
    parseDate ndConc c1Build.allItems[0]? = some (some 978307200000) ∧
    parseDate ndConc c1Build.allItems[3]? = some (some 1009843200000) ∧
    (978307200000 : Int) < 1009843200000 := by
  decide

/-- **C1 (amended).**  If every item of the final `allItems` has a parseable
date, then `allItems` is sorted descending by date: for all positions
`i < j`, the date at `i` is ≥ the date at `j`.  (With undated items
interleaved the guarantee can fail, as the counterexample shows, because the
comparator is not transitive across undated items.) -/
theorem C1_amended_sorted_when_all_dated (cfg : Config)
    (newDate : String → Option Int) (feeds : List (String × List Source))
    (cacheAllItems : List Item)
    (cacheGroups : Option (List (String × List Contents)))
    (hdated : ∀ it ∈ (build cfg newDate feeds cacheAllItems cacheGroups).allItems,
      undated newDate it = false) :
    ∀ (i j : Nat) (ta tb : Int), i < j →
      parseDate newDate (build cfg newDate feeds cacheAllItems cacheGroups).allItems[i]?
        = some (some ta) →
      parseDate newDate (build cfg newDate feeds cacheAllItems cacheGroups).allItems[j]?
        = some (some tb) →
      tb ≤ ta := by
  obtain ⟨L, hL⟩ : ∃ L, (build cfg newDate feeds cacheAllItems cacheGroups).allItems
      = jsSortItems newDate L := ⟨_, rfl⟩
  rw [hL] at hdated ⊢
  have hdatedL : ∀ it ∈ L, undated newDate it = false := by
    intro it hit
    refine hdated it ?_
    rw [jsSortItems, jsSort_eq_mergeSort]
    exact List.mem_mergeSort.mpr hit
  have hpair : (jsSortItems newDate L).Pairwise
      (fun a b => itemLE newDate a b = true) := by
    rw [jsSortItems]
    apply pairwise_jsSort_of_local
    · intro a ha b hb c hc hab hbc
      obtain ⟨ta, hpa⟩ := dated_exists newDate a (hdatedL a ha)
      obtain ⟨tb, hpb⟩ := dated_exists newDate b (hdatedL b hb)
      obtain ⟨tc, hpc⟩ := dated_exists newDate c (hdatedL c hc)
      simp only [itemLE, decide_eq_true_eq] at hab hbc ⊢
      rw [byDateSort_of_dated newDate a b ta tb hpa hpb] at hab
      rw [byDateSort_of_dated newDate b c tb tc hpb hpc] at hbc
      rw [byDateSort_of_dated newDate a c ta tc hpa hpc]
      omega
    · intro a ha b hb
      obtain ⟨ta, hpa⟩ := dated_exists newDate a (hdatedL a ha)
      obtain ⟨tb, hpb⟩ := dated_exists newDate b (hdatedL b hb)
      simp only [itemLE, Bool.or_eq_true, decide_eq_true_eq]
      rw [byDateSort_of_dated newDate a b ta tb hpa hpb]
      rw [byDateSort_of_dated newDate b a tb ta hpb hpa]
      omega
  intro i j ta tb hij hpi hpj
  rcases hgi : (jsSortItems newDate L)[i]? with _ | a
  · rw [hgi] at hpi
    simp [parseDate] at hpi
  rcases hgj : (jsSortItems newDate L)[j]? with _ | b
  · rw [hgj] at hpj
    simp [parseDate] at hpj
  rw [hgi] at hpi
  rw [hgj] at hpj
  obtain ⟨hi, hia⟩ := List.getElem?_eq_some.mp hgi
  obtain ⟨hj, hjb⟩ := List.getElem?_eq_some.mp hgj
  have hR := List.pairwise_iff_getElem.mp hpair i j hi hj hij
  rw [hia, hjb] at hR
  simp only [itemLE, decide_eq_true_eq] at hR
  rw [byDateSort_of_dated newDate a b ta tb hpi hpj] at hR
  omega

def c1wA : Item := { title := some "w newer", isoDate := some "2002-01-01T00:00:00.000Z" }

def c1wB : Item := { title := some "w older", isoDate := some "2001-01-01T00:00:00.000Z" }

def c1wSrc : Source :=
  { url := "https://w.example/feed.xml",
    fetch := .ok { contentType := some "application/rss+xml",
                   parsed := .ok { title := some "W",
                                   link := some "https://w.example/",
                                   items := [c1wB, c1wA] } } }

theorem C1_amended_witness : (978307200000 : Int) ≤ 1009843200000 :=
  C1_amended_sorted_when_all_dated {} ndConc [("w", [c1wSrc])] [] none (by decide)
    0 1 1009843200000 978307200000 (by decide) (by decide) (by decide)

def c2Feed : Contents := { title := some "Empty Feed", link := some "https://e.example/" }

def c2Resp : Response :=
  { contentType := some "application/rss+xml", parsed := .ok c2Feed }

/-- **C2.**  The claim (and §4.3/§7 of the spec) says a validated, parsed
feed with zero items must fail the Parser Adapter stage, contribute nothing
and be recorded in `ErrorLog`.  The code's guard on line 82,
`!contents.items.length === 0`, compares a boolean against the number `0`
under strict equality and is therefore false for every length, so the throw
never fires: an empty feed is accepted, pushed into its group with zero
items, and no error is recorded — the code contradicts the spec's stated
intent (the spec itself flags this inversion in §9). -/
theorem C2_empty_feed_not_rejected :
    (∀ len : Nat, emptyItemsCheck len = false) ∧
    processResponse {} ndConc "https://e.example/feed" c2Resp
      = ⟨some { title := some "Empty Feed", link := some "https://e.example/",
                feed := some "https://e.example/feed" }, [], false⟩ :=
  ⟨fun _ => rfl, by decide⟩

def c3Item : Item := { title := some "item without a link" }

def c3Feed : Contents :=
  { title := some "F", link := some "https://f.example/", items := [c3Item] }

def c3Src : Source :=
  { url := "https://f.example/feed.xml",
    fetch := .ok { contentType := some "application/xml", parsed := .ok c3Feed } }

def c3Cfg : Config := { redirects := some [] }

def c3Build : BuildOutput := build c3Cfg ndConc [("g", [c3Src])] [] none

/-- **C3 (counterexample).**  The claim states a Source failing at any stage
— including normalization — leaves no trace in any group's Feed sequence.
But the feed object is pushed onto its group (line 95) before the
normalization loop runs, so a normalization throw (here: a configured
redirect table and an item with no `link`, making `new URL(undefined)`
throw) leaves the partially-normalized Feed in the group even though the URL
is recorded in `errors` and `allItems` receives nothing. -/
theorem C3_counterexample :
    c3Build.errors = ["https://f.example/feed.xml"] ∧
    c3Build.groups = [("g", [{ title := some "F", link := some "https://f.example/",
                               items := [{ title := some "item without a link" }],
                               feed := some "https://f.example/feed.xml" }])] ∧
    c3Build.allItems = [] := by
  decide

/-- **C3 (amended).**  A Source that fails at any stage contributes no items
to `allItems` and its URL is appended to `ErrorLog`; a Source that succeeds
contributes a complete normalized Feed whose items are exactly what
`allItems` receives.  (Unlike the original claim, a Source failing during
item normalization may still leave its partially-normalized Feed in its
group's Feed sequence, as the counterexample shows.) -/
theorem C3_amended_failure_contract (cfg : Config)
    (newDate : String → Option Int) (feeds : List (String × List Source))
    (cacheAllItems : List Item)
    (cacheGroups : Option (List (String × List Contents)))
    (g : String) (ss : List Source) (s : Source)
    (hg : (g, ss) ∈ feeds) (hs : s ∈ ss) :
    ((processSource cfg newDate s).errored = true →
      (processSource cfg newDate s).newItems = [] ∧
      s.url ∈ (build cfg newDate feeds cacheAllItems cacheGroups).errors) ∧
    ((processSource cfg newDate s).errored = false →
      ∃ c, (processSource cfg newDate s).groupFeed = some c ∧
        (processSource cfg newDate s).newItems = c.items) :=
  ⟨fun herr => ⟨(processSource_invariant cfg newDate s).1 herr,
      mem_build_errors cfg newDate feeds cacheAllItems cacheGroups g ss s hg hs herr⟩,
    (processSource_invariant cfg newDate s).2⟩

theorem C3_amended_witness :
    (processSource c3Cfg ndConc c3Src).newItems = [] ∧
    "https://f.example/feed.xml" ∈ (build c3Cfg ndConc [("g", [c3Src])] [] none).errors :=
  (C3_amended_failure_contract c3Cfg ndConc [("g", [c3Src])] [] none "g" [c3Src] c3Src
    (List.mem_singleton.mpr rfl) (List.mem_singleton.mpr rfl)).1 (by decide)

/-- **C4.**  The comparator reports any pair as equal (returns `0`) whenever
either side's date is missing or unparseable, and consequently — the
modelled `Array.prototype.sort` being stable — the items with missing or
unparseable dates appear in the sorted output exactly in their pre-sort
relative order (their sublist is untouched by the sort). -/
theorem C4_undated_compare_equal_and_stable (newDate : String → Option Int) :
    (∀ a b : Option Item,
      undatedO newDate a = true ∨ undatedO newDate b = true →
      byDateSort newDate a b = 0) ∧
    (∀ l : List Item,
      (jsSortItems newDate l).filter (fun it => undated newDate it)
        = l.filter (fun it => undated newDate it)) := by
  refine ⟨byDateSort_eq_zero_of_undated newDate, fun l => ?_⟩
  rw [jsSortItems]
  apply filter_jsSort_of_always
  intro a b hab
  rw [itemLE]
  have h0 : byDateSort newDate (some a) (some b) = 0 := by
    apply byDateSort_eq_zero_of_undated
    rcases hab with h | h
    · exact Or.inl h
    · exact Or.inr h
  rw [h0]
  decide

theorem C4_witness :
    byDateSort ndConc (some c1X) (some c1A) = 0 ∧
    (jsSortItems ndConc [c1A, c1X, c1Y, c1B]).filter (fun it => undated ndConc it)
      = [c1A, c1X, c1Y, c1B].filter (fun it => undated ndConc it) :=
  ⟨(C4_undated_compare_equal_and_stable ndConc).1 (some c1X) (some c1A)
      (Or.inl (by decide)),
    (C4_undated_compare_equal_and_stable ndConc).2 [c1A, c1X, c1Y, c1B]⟩

def c5ItemIn : Item :=
  { title := some "Post", link := some "https://c.example/post/1",
    isoDate := some "2002-01-01T00:00:00.000Z" }

def c5Feed : Contents :=
  { title := some "C Feed", link := some "https://c.example/", items := [c5ItemIn] }

def c5SrcA : Source :=
  { url := "https://a.example/feed",
    fetch := .ok { contentType := some "text/html", parsed := .error () } }

def c5SrcB : Source := { url := "https://b.example/feed", fetch := .error () }

def c5SrcC : Source :=
  { url := "https://c.example/feed",
    fetch := .ok { contentType := some "application/rss+xml; charset=utf-8",
                   parsed := .ok c5Feed } }

def c5ItemOut : Item :=
  { title := some "Post", link := some "https://c.example/post/1",
    isoDate := some "2002-01-01T00:00:00.000Z", timestamp := some 1009843200000 }

def c5FeedOut : Contents :=
  { title := some "C Feed", link := some "https://c.example/",
    items := [c5ItemOut], feed := some "https://c.example/feed" }

def c5Build : BuildOutput := build {} ndConc [("tech", [c5SrcA, c5SrcB, c5SrcC])] [] none

/-- **C5.**  A group with three Sources — one with an unacceptable
content-type (`text/html`, URL without a feed extension), one whose fetch
rejects, one valid single-item feed — builds to completion: `errors` holds
exactly the two failing URLs, and `allItems` and the group's feed list hold
only the one successful (normalized) item. -/
theorem C5_partial_failure_scenario :
    c5Build = { allItems := [c5ItemOut], groups := [("tech", [c5FeedOut])],
                errors := ["https://a.example/feed", "https://b.example/feed"] } := by
  decide

/-- **C6.**  A parsed-feed title longer than 100 characters is stored as
exactly 100 characters: its first 97 characters are the first 97 characters
of the original, followed by the three-character ellipsis marker `...`;
titles of at most 100 characters are stored unchanged. -/
theorem C6_title_truncation (t : String) :
    (100 < jsLen t →
      jsLen (truncateTitle t) = 100 ∧
      (truncateTitle t).data.drop 97 = "...".data ∧
      (truncateTitle t).data.take 97 = t.data.take 97) ∧
    (jsLen t ≤ 100 → truncateTitle t = t) := by
  constructor
  · intro h
    have htr : truncateTitle t = ⟨t.data.take 97 ++ "...".data⟩ := by
      rw [truncateTitle, if_pos h]
      rfl
    have h97 : (t.data.take 97).length = 97 := by
      rw [List.length_take]
      rw [jsLen] at h
      omega
    refine ⟨?_, ?_, ?_⟩
    · rw [htr]
      show (t.data.take 97 ++ "...".data).length = 100
      rw [List.length_append, h97]
      rfl
    · rw [htr]
      show (t.data.take 97 ++ "...".data).drop 97 = "...".data
      exact List.drop_left' h97
    · rw [htr]
      show (t.data.take 97 ++ "...".data).take 97 = t.data.take 97
      exact List.take_left' h97
  · intro h
    rw [truncateTitle, if_neg (by simp only [jsLen] at h ⊢; omega)]

def t150 : String := String.mk (List.replicate 150 'a')

theorem C6_witness :
    jsLen (truncateTitle t150) = 100 ∧
    (truncateTitle t150).data.drop 97 = "...".data ∧
    (truncateTitle t150).data.take 97 = t150.data.take 97 :=
  (C6_title_truncation t150).1 (by decide)

def c7ItemRel : Item := { link := some "/post/1" }

/-- **C7.**  Link absolutization: with feed base `https://example.com/` and
item link `/post/1` the normalized link is `https://example.com/post/1`
(no doubled separator), and likewise with base `https://example.com`;
an item link that already contains the scheme marker `http` is left
unchanged by the transform. -/
theorem C7_link_absolutization :
    step2Link (some "https://example.com/") c7ItemRel
      = .ok { c7ItemRel with link := some "https://example.com/post/1" } ∧
    step2Link (some "https://example.com") c7ItemRel
      = .ok { c7ItemRel with link := some "https://example.com/post/1" } ∧
    (∀ (contentsLink : Option String) (it : Item) (l : String),
      it.link = some l → (jsSplit l "http").length ≠ 1 →
      step2Link contentsLink it = .ok it) := by
  refine ⟨rfl, rfl, ?_⟩
  intro cl it l hl hsc
  have hne : l ≠ "" := by
    intro he
    subst he
    exact hsc (by decide)
  simp only [step2Link, hl, if_neg hne, if_neg hsc]

theorem C7_witness :
    step2Link (some "https://base.example/") { link := some "https://x.example/a" }
      = .ok { link := some "https://x.example/a" } :=
  C7_link_absolutization.2.2 (some "https://base.example/")
    { link := some "https://x.example/a" } "https://x.example/a" rfl (by decide)

def c8Item : Item := { link := some "https://www.reddit.com/r/foo/comments/1?x=2" }

/-- **C8.**  Redirect resolution: with table `[("reddit", "old.reddit.com")]`
the item link `https://www.reddit.com/r/foo/comments/1?x=2` is rewritten to
a link whose hostname is `old.reddit.com` with pathname `/r/foo/comments/1`
and query `?x=2` preserved; and whenever the second-level-domain token of an
item's link hostname has no entry in the redirect table, the link is left
unchanged. -/
theorem C8_redirect_resolution :
    step4Redirect (some [("reddit", "old.reddit.com")]) c8Item
      = .ok { c8Item with link := some "https://old.reddit.com/r/foo/comments/1?x=2" } ∧
    parseURL "https://old.reddit.com/r/foo/comments/1?x=2"
      = some { hostname := "old.reddit.com", pathname := "/r/foo/comments/1",
               search := "?x=2" } ∧
    (∀ (table : List (String × String)) (it : Item) (l : String) (u : URLRec),
      it.link = some l → parseURL l = some u →
      (∀ host, hostToken u.hostname = some host → table.lookup host = none) →
      step4Redirect (some table) it = .ok it) := by
  refine ⟨rfl, by decide, ?_⟩
  intro table it l u hl hu habs
  rcases hht : hostToken u.hostname with _ | host
  · simp only [step4Redirect, hl, hu, hht]
  · simp only [step4Redirect, hl, hu, hht, habs host hht]

theorem C8_witness :
    step4Redirect (some [("reddit", "old.reddit.com")])
        { link := some "https://example.org/a/b?c=d" }
      = .ok { link := some "https://example.org/a/b?c=d" } :=
  C8_redirect_resolution.2.2 [("reddit", "old.reddit.com")]
    { link := some "https://example.org/a/b?c=d" } "https://example.org/a/b?c=d"
    { hostname := "example.org", pathname := "/a/b", search := "?c=d" } rfl (by decide)
    (fun host hh => by
      have h2 : hostToken "example.org" = some "example" := by decide
      rw [h2] at hh
      cases hh
      decide)

/-- **C9.**  The sort comparator reads only `isoDate`/`pubDate` (`isoDate`
first), while timestamp normalization also accepts the `date` and
`published` field names: an item whose only date information sits in
`date`/`published` (with `isoDate` and `pubDate` absent) gets a valid
display timestamp from step 1, yet `byDateSort` — the comparator of all
three sorts (per-feed items, `allItems`, and first-item feed ordering) —
returns `0` against every other argument, in both orders. -/
theorem C9_sort_ignores_date_published_fields (newDate : String → Option Int)
    (it : Item) (d : String) (t : Int)
    (hiso : it.isoDate = none) (hpub : it.pubDate = none)
    (hattr : jsOrStr it.date it.published = some d)
    (hne : d ≠ "") (hd : newDate d = some t) :
    (step1Timestamp newDate it).timestamp = some t ∧
    (∀ x : Option Item, byDateSort newDate (some it) x = 0 ∧
      byDateSort newDate x (some it) = 0) := by
  constructor
  · have hda : dateAttr it = some d := by
      rw [dateAttr, hpub, hiso]
      exact hattr
    show (match dateAttr it with
          | none => none
          | some d => if d = "" then none else newDate d) = some t
    rw [hda]
    show (if d = "" then none else newDate d) = some t
    rw [if_neg hne]
    exact hd
  · intro x
    have hp : parseDate newDate (some it) = none := by
      simp only [parseDate, hiso, hpub, jsOrStr]
    have hun : undatedO newDate (some it) = true := by
      rw [undatedO, hp]
    exact ⟨byDateSort_eq_zero_of_undated newDate (some it) x (Or.inl hun),
      byDateSort_eq_zero_of_undated newDate x (some it) (Or.inr hun)⟩

def c9Item : Item := { title := some "only date field",
                       date := some "2003-01-01T00:00:00.000Z" }

theorem C9_witness :
    (step1Timestamp ndConc c9Item).timestamp = some 1041379200000 ∧
    byDateSort ndConc (some c9Item) (some c1A) = 0 ∧
    byDateSort ndConc (some c1A) (some c9Item) = 0 :=
  ⟨(C9_sort_ignores_date_published_fields ndConc c9Item "2003-01-01T00:00:00.000Z"
      1041379200000 rfl rfl rfl (by decide) rfl).1,
    ((C9_sort_ignores_date_published_fields ndConc c9Item "2003-01-01T00:00:00.000Z"
      1041379200000 rfl rfl rfl (by decide) rfl).2 (some c1A)).1,
    ((C9_sort_ignores_date_published_fields ndConc c9Item "2003-01-01T00:00:00.000Z"
      1041379200000 rfl rfl rfl (by decide) rfl).2 (some c1A)).2⟩

/-- **C10.**  A fulfilled response with no `content-type` header does not
crash the pipeline: `headers.get` returns `null`, the `.split` call throws
inside the per-source try-block, the Source is treated as failed (no feed,
no items), its URL is pushed onto `errors`, and the loop continues with the
remaining Sources of the batch exactly as if the failed one were absent. -/
theorem C10_missing_content_type_header (cfg : Config)
    (newDate : String → Option Int) (s : Source) (resp : Response)
    (rest : List Source) (hf : s.fetch = .ok resp) (hct : resp.contentType = none) :
    processSource cfg newDate s = ⟨none, [], true⟩ ∧
    processGroup cfg newDate (s :: rest)
      = ((processGroup cfg newDate rest).1,
         (processGroup cfg newDate rest).2.1,
         s.url :: (processGroup cfg newDate rest).2.2) := by
  have hc : contentTypeOf resp = .error () := by
    rw [contentTypeOf, hct]
  have h1 : processSource cfg newDate s = ⟨none, [], true⟩ := by
    unfold processSource
    rw [hf]
    show processResponse cfg newDate s.url resp = ⟨none, [], true⟩
    unfold processResponse
    rw [hc]
  refine ⟨h1, ?_⟩
  simp only [processGroup, h1]
  rfl

def c10Src : Source :=
  { url := "https://h.example/feed",
    fetch := .ok { contentType := none, parsed := .error () } }

theorem C10_witness :
    processSource {} ndConc c10Src = ⟨none, [], true⟩ ∧
    processGroup {} ndConc [c10Src, c5SrcC]
      = ((processGroup {} ndConc [c5SrcC]).1,
         (processGroup {} ndConc [c5SrcC]).2.1,
         "https://h.example/feed" :: (processGroup {} ndConc [c5SrcC]).2.2) :=
  C10_missing_content_type_header {} ndConc c10Src
    { contentType := none, parsed := .error () } [c5SrcC] rfl rfl

end Bubo
